import Mathlib

/-
Verification development for the desktop activity-monitoring core
(`SystemTrayService`), shallowly embedded from the two TypeScript variants:
`src/services/SystemTrayService.ts` (tray variant, with the focus-score /
distraction-streak mechanism) and the consolidated service in
`src/hooks/use-toast-duration.ts` (hook variant, with per-user isolation and
persistence).  Times are modelled as `Nat` milliseconds (wall clock never
runs backwards), JavaScript `Map`s as association lists preserving insertion
order, and string operations (`toLowerCase`, `includes`, `trim`) over their
ASCII behaviour, which covers every string occurring in the program and its
specification.
-/

/-! ### String primitives (JS `toLowerCase`, `includes`, `trim`) -/

/-- JS `String.prototype.toLowerCase`, ASCII fragment. -/
def lc (s : String) : String :=
  String.mk (s.data.map Char.toLower)

/-- Does `needle` occur as a contiguous run inside `hay`?  Mirrors JS
`hay.includes(needle)` (empty needle always succeeds). -/
def subAux (needle : List Char) : List Char → Bool
  | [] => needle.isEmpty
  | c :: t => needle.isPrefixOf (c :: t) || subAux needle t

def jsIncludes (hay needle : String) : Bool :=
  subAux needle.data hay.data

/-- JS `String.prototype.trim`, ASCII fragment. -/
def jsTrim (s : String) : String :=
  String.mk (((s.data.dropWhile Char.isWhitespace).reverse.dropWhile Char.isWhitespace).reverse)

/-! ### Whitelist matcher and app classifier
(`isAppInWhitelist`, `determineAppType`, identical in both variants) -/

/-- `DEFAULT_WHITELIST_APPS` from both variants. -/
def DEFAULT_WHITELIST_APPS : List String :=
  ["Electron", "electron", "Mindful Desktop Companion", "chrome-devtools"]

/-- One arm of the bidirectional case-insensitive substring test:
`a.toLowerCase().includes(e.toLowerCase()) || e.toLowerCase().includes(a.toLowerCase())`. -/
def biMatch (a e : String) : Bool :=
  jsIncludes (lc a) (lc e) || jsIncludes (lc e) (lc a)

/-- The `isSystemApp` test repeated at the top of `trackAppUsage`,
`isAppInWhitelist` and `notifyFocusModeViolation`:
`DEFAULT_WHITELIST_APPS.some(d => bidirectional-substring-match)`. -/
def isSystemApp (a : String) : Bool :=
  DEFAULT_WHITELIST_APPS.any (fun d => biMatch a d)

/-- `isAppInWhitelist(appName, whitelist)` from both variants. -/
def isAppInWhitelist (appName : String) (whitelist : List String) : Bool :=
  if appName = "" then false
  else if isSystemApp appName then true
  else whitelist.any (fun w => biMatch appName w)

def PRODUCTIVE_KEYWORDS : List String :=
  ["code", "word", "excel", "powerpoint", "outlook", "terminal", "studio", "notepad", "editor"]

def COMMUNICATION_KEYWORDS : List String :=
  ["teams", "slack", "zoom", "meet", "mail", "outlook", "gmail"]

def DISTRACTION_KEYWORDS : List String :=
  ["youtube", "netflix", "facebook", "instagram", "twitter", "game", "reddit", "tiktok"]

/-- `determineAppType` from both variants: keyword lookup on the lower-cased
name, productive before communication before distraction, default productive. -/
def determineAppType (appName : String) : String :=
  let l := lc appName
  if PRODUCTIVE_KEYWORDS.any (fun k => jsIncludes l k) then "productive"
  else if COMMUNICATION_KEYWORDS.any (fun k => jsIncludes l k) then "communication"
  else if DISTRACTION_KEYWORDS.any (fun k => jsIncludes l k) then "distraction"
  else "productive"

/-! ### Name normalizer (`extractAppName`)

The regex `/^(.*?)(?:\s[-–—]\s|\s\|\s|\s:|\s\d|$)/` matched lazily: the
captured group is the shortest prefix followed by one of the four separator
patterns or the end of input, where `.` cannot cross a line terminator. -/

def isDashChar (c : Char) : Bool :=
  c = '-' || c = '–' || c = '—'

/-- Can `.` match this character (JS `.` excludes line terminators)? -/
def dotOk (c : Char) : Bool :=
  !(c = '\n' || c = '\r' || c = '\u2028' || c = '\u2029')

/-- Does one of the separator alternatives of the regex match at the head of
the list?  The alternatives are whitespace-dash-whitespace,
whitespace-pipe-whitespace, whitespace-colon, whitespace-digit. -/
def sepAt : List Char → Bool
  | a :: b :: rest =>
    (a.isWhitespace && b = ':') || (a.isWhitespace && b.isDigit) ||
      (match rest with
       | c :: _ => a.isWhitespace && (isDashChar b || b = '|') && c.isWhitespace
       | [] => false)
  | _ => false

/-- The regex match: `some p` when the regex matches with captured group `p`
(the characters before the first separator position), `none` when the lazy
prefix hits an unmatchable line terminator before any separator. -/
def findSplit : List Char → Option (List Char)
  | [] => some []
  | c :: t =>
    if sepAt (c :: t) then some []
    else if dotOk c then (findSplit t).map (fun p => c :: p)
    else none

/-- `extractAppName` from both variants, including the
`appNameMatches?.[1]?.trim() || windowTitle.trim()` fallback: a captured
group that trims to the empty string falls back to the whole trimmed title. -/
def extractAppName (windowTitle : String) : String :=
  if windowTitle = "" then ""
  else
    match findSplit windowTitle.data with
    | some p =>
      let t := jsTrim (String.mk p)
      if t = "" then jsTrim windowTitle else t
    | none => jsTrim windowTitle

/-- Modelled from the claim wording of C7 (not from the source): a separator
is a dash or pipe surrounded by spaces, a colon, or a digit — with no
whitespace requirement before the colon or digit. -/
def claimSepAt : List Char → Bool
  | [] => false
  | a :: rest =>
    a = ':' || a.isDigit ||
      (match rest with
       | b :: c :: _ => a.isWhitespace && (isDashChar b || b = '|') && c.isWhitespace
       | _ => false)

/-- Modelled from the claim wording of C7: position of the first separator. -/
def claimSplit (cs : List Char) : Option Nat :=
  (List.range cs.length).find? (fun i => claimSepAt (cs.drop i))

/-- Modelled from the claim wording of C7: leading segment up to the first
separator, trimmed; whole trimmed title when no separator; empty for empty. -/
def claimExtract (s : String) : String :=
  if s = "" then ""
  else
    match claimSplit s.data with
    | some i => jsTrim (String.mk (s.data.take i))
    | none => jsTrim s

/-- Spec-side reformulation of the amended C7 (independently structured from
`findSplit`): is every character strictly before position `i` matchable by
the lazy `.*?` prefix? -/
def cleanBefore (cs : List Char) (i : Nat) : Bool :=
  (cs.take i).all dotOk

/-- Spec-side reformulation of the amended C7: the first position `i` whose
prefix is matchable and at which a separator (or the end of input) occurs. -/
def specSplit (cs : List Char) : Option Nat :=
  (List.range (cs.length + 1)).find?
    (fun i => cleanBefore cs i && (sepAt (cs.drop i) || i = cs.length))

/-- Spec-side reformulation of the amended C7: the leading segment up to the
first separator, trimmed; the whole trimmed title when there is no separator
position or when the segment trims to the empty string. -/
def specExtract (s : String) : String :=
  if s = "" then ""
  else
    match specSplit s.data with
    | some i =>
      let t := jsTrim (String.mk (s.data.take i))
      if t = "" then jsTrim s else t
    | none => jsTrim s

/-! ### Association lists (JS `Map` with insertion order) -/

/-- `Map.set`: overwrite in place, else append. -/
def setA {α : Type} (k : String) (v : α) : List (String × α) → List (String × α)
  | [] => [(k, v)]
  | (k', v') :: t => if k' = k then (k, v) :: t else (k', v') :: setA k v t

/-- `[...new Set([...a])]` over strings: deduplicate keeping first occurrences. -/
def jsDedupAux : List String → List String → List String
  | _, [] => []
  | seen, a :: t => if a ∈ seen then jsDedupAux seen t else a :: jsDedupAux (a :: seen) t

def jsDedup (l : List String) : List String :=
  jsDedupAux [] l

/-! ### Shared numeric constants -/

def idleThreshold : Nat := 60000
def switchThreshold : Nat := 3
def switchTimeframe : Nat := 30000
def notificationCooldown : Nat := 180000
def notificationThrottleTime1 : Nat := 500
def notificationThrottleTime2 : Nat := 2000
def dayMs : Nat := 86400000

/-- `appName = appOwner !== "Unknown" ? appOwner : appTitle`, where the event
handler passes `windowInfo.owner || "Unknown"` (a missing or empty owner
falls back to the title). -/
def resolveAppName (title : String) (owner : Option String) : String :=
  let appOwner :=
    match owner with
    | none => "Unknown"
    | some o => if o = "" then "Unknown" else o
  if appOwner = "Unknown" then title else appOwner

/-! ### Tray variant (`src/services/SystemTrayService.ts`) -/

/-- Value of the tray variant's `appUsageData` map. -/
structure UsageRec1 where
  time : Nat
  type : String
  lastActiveTime : Nat
deriving DecidableEq

/-- Mutable fields of the tray variant relevant to the monitored behaviour. -/
structure TrayS where
  lastActiveWindow : Option String
  windowSwitches : Nat
  switchDeadline : Option Nat
  lastNotificationTime : Nat
  notificationThrottleMap : List (String × Nat)
  screenTimeToday : Nat
  lastScreenTimeUpdate : Nat
  lastActivityTime : Nat
  userIdleTime : Nat
  focusScore : Nat
  distractionCount : Nat
  isFocusMode : Bool
  focusModeWhitelist : List String
  dimInsteadOfBlock : Bool
  appUsageData : List (String × UsageRec1)
  recentSwitches : Nat
  lastWindowSwitchTime : Nat
deriving DecidableEq

/-- The tray variant's field initializers, with clocks started at `t0`. -/
def initTray (t0 : Nat) : TrayS :=
  { lastActiveWindow := none
    windowSwitches := 0
    switchDeadline := none
    lastNotificationTime := 0
    notificationThrottleMap := []
    screenTimeToday := 0
    lastScreenTimeUpdate := t0
    lastActivityTime := t0
    userIdleTime := 0
    focusScore := 100
    distractionCount := 0
    isFocusMode := false
    focusModeWhitelist := []
    dimInsteadOfBlock := true
    appUsageData := []
    recentSwitches := 0
    lastWindowSwitchTime := 0 }

/-- Tray `updateScreenTime`: when the user is not idle, add the wall time
since the previous tick to `screenTimeToday`; always advance the
previous-tick timestamp. -/
def updateScreenTime1 (s : TrayS) (now : Nat) : TrayS :=
  if s.userIdleTime < idleThreshold then
    { s with screenTimeToday := s.screenTimeToday + (now - s.lastScreenTimeUpdate)
             lastScreenTimeUpdate := now }
  else
    { s with lastScreenTimeUpdate := now }

/-- Tray `getScreenTime`: runs `updateScreenTime` and returns the total. -/
def getScreenTime1 (s : TrayS) (now : Nat) : Nat × TrayS :=
  let s' := updateScreenTime1 s now
  (s'.screenTimeToday, s')

/-- The 10-second idle check of both variants. -/
def idleCheckOn (lastActivityTime : Nat) (now : Nat) : Nat :=
  if idleThreshold < now - lastActivityTime then now - lastActivityTime else 0

/-- Tray `handleWindowSwitch`: switch detection, streak counting, and the
distraction-streak signal (returned as the Bool).  On a genuine switch the
counter increments and the 30-second zeroing timer restarts; on reaching the
threshold, the signal fires only if the 180-second cooldown since the last
signal has elapsed, updating the distraction count and focus score; the
counter resets whenever the threshold is reached. -/
def handleWindowSwitch1 (s : TrayS) (now : Nat) (w : String) : TrayS × Bool :=
  if s.lastActiveWindow = some w then (s, false)
  else
    let s1 := { s with lastActiveWindow := some w
                       windowSwitches := s.windowSwitches + 1
                       switchDeadline := some (now + switchTimeframe) }
    if switchThreshold ≤ s1.windowSwitches then
      if notificationCooldown < now - s.lastNotificationTime then
        ({ s1 with lastNotificationTime := now
                   distractionCount := s.distractionCount + 1
                   focusScore := 100 - (s.distractionCount + 1) * 5
                   windowSwitches := 0 }, true)
      else ({ s1 with windowSwitches := 0 }, false)
    else (s1, false)

/-- Tray `handleRealWindowSwitch`: the coarse 2-second-debounced
`recentSwitches` diagnostic counter, then `handleWindowSwitch`. -/
def handleRealWindowSwitch1 (s : TrayS) (now : Nat) (title : String) : TrayS × Bool :=
  let s1 :=
    if 2000 < now - s.lastWindowSwitchTime then
      { s with recentSwitches := s.recentSwitches + 1, lastWindowSwitchTime := now }
    else s
  handleWindowSwitch1 s1 now title

/-- Tray `notifyFocusModeViolation`: skip default-exempt apps, throttle per
app name, record the send time, emit the message. -/
def notifyFocusModeViolation1 (s : TrayS) (now : Nat) (appName : String) :
    TrayS × Option (String × String) :=
  if isSystemApp appName then (s, none)
  else
    let lastNotified := (s.notificationThrottleMap.lookup appName).getD 0
    if now - lastNotified < notificationThrottleTime1 then (s, none)
    else
      ({ s with notificationThrottleMap := setA appName now s.notificationThrottleMap },
       some (appName, ("You're outside your focus zone. " ++ appName) ++ " is not in your whitelist."))

/-- First half of the tray ledger update: create the record on first sight
with zero time and the classifier's category. -/
def track1_insert (s : TrayS) (now : Nat) (core ty : String) : TrayS :=
  if (s.appUsageData.lookup core).isNone then
    { s with appUsageData := setA core { time := 0, type := ty, lastActiveTime := now } s.appUsageData }
  else s

/-- The ledger-update portion of tray `trackAppUsage`: create the record on
first sight, attribute elapsed time when not idle and the identity matches
the last active window, refresh `lastActiveTime`. -/
def track1_ledger (s : TrayS) (now : Nat) (core ty : String) : TrayS :=
  let s1 := track1_insert s now core ty
  if s1.userIdleTime < idleThreshold ∧ s1.lastActiveWindow = some core then
    { s1 with appUsageData := s1.appUsageData.map (fun p =>
        if p.1 = core then
          (p.1, { time := p.2.time + (now - s1.lastActivityTime), type := p.2.type,
                  lastActiveTime := now })
        else p) }
  else
    { s1 with appUsageData := s1.appUsageData.map (fun p =>
        if p.1 = core then (p.1, { p.2 with lastActiveTime := now }) else p) }

/-- Tray `trackAppUsage`: derive the core identity, update the ledger, then
run the focus-mode check.  Returns the focus-mode violation, if any. -/
def trackAppUsage1 (s : TrayS) (now : Nat) (title : String) (owner : Option String) :
    TrayS × Option (String × String) :=
  let core := extractAppName (resolveAppName title owner)
  let s2 := track1_ledger s now core (determineAppType core)
  if s2.isFocusMode && !(isSystemApp core) && !(isAppInWhitelist core s2.focusModeWhitelist) then
    notifyFocusModeViolation1 s2 now core
  else (s2, none)

/-- The tray variant's `active-window-changed` handler:
`handleRealWindowSwitch(title)`, then `trackAppUsage(title, owner)`, then
`lastActivityTime = Date.now()` — in that order, so `trackAppUsage` still
sees the previous activity timestamp.  Returns (state, streak signal,
focus-mode violation). -/
def activityStep1 (s : TrayS) (now : Nat) (title : String) (owner : Option String) :
    TrayS × Bool × Option (String × String) :=
  let r1 := handleRealWindowSwitch1 s now title
  let r2 := trackAppUsage1 r1.1 now title owner
  ({ r2.1 with lastActivityTime := now }, r1.2, r2.2)

/-- Tray `resetDailyStats`. -/
def resetDailyStats1 (s : TrayS) : TrayS :=
  { s with screenTimeToday := 0, distractionCount := 0, focusScore := 100, appUsageData := [] }

/-- The tray variant's independently-cadenced entry points: inbound window
events, the 10-second idle check, the 60-second accumulation tick (also run
by the public `getScreenTime`), the 30-second switch-counter timer, and the
midnight reset. -/
inductive Ev1 where
  | activity (title : String) (owner : Option String)
  | idleCheck
  | tick
  | switchFire
  | dailyReset
deriving DecidableEq

def step1 (s : TrayS) (now : Nat) (e : Ev1) : TrayS × Bool × Option (String × String) :=
  match e with
  | Ev1.activity title owner => activityStep1 s now title owner
  | Ev1.idleCheck => ({ s with userIdleTime := idleCheckOn s.lastActivityTime now }, false, none)
  | Ev1.tick => (updateScreenTime1 s now, false, none)
  | Ev1.switchFire =>
    (match s.switchDeadline with
     | some d => if d ≤ now then { s with windowSwitches := 0, switchDeadline := none } else s
     | none => s, false, none)
  | Ev1.dailyReset => (resetDailyStats1 s, false, none)

/-- Run the tray machine over timed events, collecting the times of the
distraction-streak signals and the identities of focus-mode violations. -/
def run1 (s : TrayS) : List (Nat × Ev1) → TrayS × List Nat × List (String × String)
  | [] => (s, [], [])
  | (t, e) :: rest =>
    let r := step1 s t e
    let rr := run1 r.1 rest
    (rr.1, (if r.2.1 then [t] else []) ++ rr.2.1,
     (match r.2.2 with
      | some a => [a]
      | none => []) ++ rr.2.2)

/-! ### Hook variant (the consolidated service in `src/hooks/use-toast-duration.ts`) -/

/-- Value of the hook variant's `appUsageData` map (adds `sessionStart`). -/
structure UsageRec2 where
  time : Nat
  type : String
  lastActiveTime : Nat
  sessionStart : Nat
deriving DecidableEq

/-- One entry of the persisted `appUsageData` array. -/
structure SavedRec where
  name : String
  time : Nat
  type : String
  lastActiveTime : Nat
deriving DecidableEq

/-- The JSON blob stored under `systemTrayData_${userId}` by `persistUserData`. -/
structure SavedBlob where
  screenTimeToday : Nat
  appUsageData : List SavedRec
  focusModeWhitelist : List String
  isFocusMode : Bool
  dimInsteadOfBlock : Bool
  timestamp : Nat
deriving DecidableEq

/-- Mutable fields of the hook variant relevant to the monitored behaviour. -/
structure HookS where
  lastActiveWindow : Option String
  windowSwitches : Nat
  switchDeadline : Option Nat
  screenTimeToday : Nat
  lastScreenTimeUpdate : Nat
  lastActivityTime : Nat
  userIdleTime : Nat
  isFocusMode : Bool
  focusModeWhitelist : List String
  dimInsteadOfBlock : Bool
  appUsageData : List (String × UsageRec2)
  processedNotifications : List String
  notificationThrottleMap : List (String × Nat)
  recentSwitches : Nat
  lastWindowSwitchTime : Nat
  currentUserId : Option String
deriving DecidableEq

/-- The hook variant's field initializers, with clocks started at `t0`. -/
def initHook (t0 : Nat) : HookS :=
  { lastActiveWindow := none
    windowSwitches := 0
    switchDeadline := none
    screenTimeToday := 0
    lastScreenTimeUpdate := t0
    lastActivityTime := t0
    userIdleTime := 0
    isFocusMode := false
    focusModeWhitelist := []
    dimInsteadOfBlock := true
    appUsageData := []
    processedNotifications := []
    notificationThrottleMap := []
    recentSwitches := 0
    lastWindowSwitchTime := 0
    currentUserId := none }

/-- Hook `updateScreenTime`: when not idle, add the elapsed wall time to
`screenTimeToday` and, when there is a (truthy) active window, to that
window's usage record via `updateAppUsageTime`; always advance the
previous-tick timestamp. -/
def updateScreenTime2 (s : HookS) (now : Nat) : HookS :=
  if s.userIdleTime < idleThreshold then
    let elapsed := now - s.lastScreenTimeUpdate
    let usage :=
      match s.lastActiveWindow with
      | some w =>
        if w = "" then s.appUsageData
        else s.appUsageData.map (fun p =>
          if p.1 = w then
            (p.1, { p.2 with time := p.2.time + elapsed, lastActiveTime := now })
          else p)
      | none => s.appUsageData
    { s with screenTimeToday := s.screenTimeToday + elapsed
             appUsageData := usage
             lastScreenTimeUpdate := now }
  else
    { s with lastScreenTimeUpdate := now }

/-- Hook `getScreenTime`: runs `updateScreenTime` and returns the total. -/
def getScreenTime2 (s : HookS) (now : Nat) : Nat × HookS :=
  let s' := updateScreenTime2 s now
  (s'.screenTimeToday, s')

/-- Hook `handleWindowSwitch`: switch detection and counting only — this
variant has no distraction-streak signal. -/
def handleWindowSwitch2 (s : HookS) (now : Nat) (w : String) : HookS :=
  if s.lastActiveWindow = some w then s
  else
    { s with lastActiveWindow := some w
             windowSwitches := s.windowSwitches + 1
             switchDeadline := some (now + switchTimeframe) }

/-- Hook `handleRealWindowSwitch`. -/
def handleRealWindowSwitch2 (s : HookS) (now : Nat) (title : String) : HookS :=
  let s1 :=
    if 2000 < now - s.lastWindowSwitchTime then
      { s with recentSwitches := s.recentSwitches + 1, lastWindowSwitchTime := now }
    else s
  handleWindowSwitch2 s1 now title

/-- Hook `notifyFocusModeViolation`: skip default-exempt apps; returning to a
whitelisted app clears the one-shot dedupe set; a seen notification id or a
send within the 2-second throttle window is suppressed. -/
def notifyFocusModeViolation2 (s : HookS) (now : Nat) (appName : String) :
    HookS × Option (String × String) :=
  if isSystemApp appName then (s, none)
  else
    let notificationId := "focus-mode-violation-" ++ appName
    if isAppInWhitelist appName s.focusModeWhitelist then
      ({ s with processedNotifications := [] }, none)
    else if notificationId ∈ s.processedNotifications then (s, none)
    else
      let lastNotified := (s.notificationThrottleMap.lookup appName).getD 0
      if now - lastNotified < notificationThrottleTime2 then (s, none)
      else
        ({ s with notificationThrottleMap := setA appName now s.notificationThrottleMap
                  processedNotifications := s.processedNotifications ++ [notificationId] },
         some (appName, ("You're outside your focus zone. " ++ appName) ++ " is not in your whitelist."))

/-- The ledger-update portion of hook `trackAppUsage`: create the record on
first sight (with session tracking) or refresh `lastActiveTime`. -/
def track2_ledger (s : HookS) (now : Nat) (core ty : String) : HookS :=
  let fresh : UsageRec2 := { time := 0, type := ty, lastActiveTime := now, sessionStart := now }
  match s.appUsageData.lookup core with
  | none => { s with appUsageData := setA core fresh s.appUsageData }
  | some r =>
    { s with appUsageData := setA core { r with lastActiveTime := now } s.appUsageData }

def trackAppUsage2 (s : HookS) (now : Nat) (title : String) (owner : Option String) :
    HookS × Option (String × String) :=
  let core := extractAppName (resolveAppName title owner)
  let s1 := track2_ledger s now core (determineAppType core)
  if s1.isFocusMode && !(isSystemApp core) && !(isAppInWhitelist core s1.focusModeWhitelist) then
    notifyFocusModeViolation2 s1 now core
  else (s1, none)

/-- The hook variant's `active-window-changed` handler (same ordering as the
tray variant). -/
def activityStep2 (s : HookS) (now : Nat) (title : String) (owner : Option String) :
    HookS × Option (String × String) :=
  let s1 := handleRealWindowSwitch2 s now title
  let r2 := trackAppUsage2 s1 now title owner
  ({ r2.1 with lastActivityTime := now }, r2.2)

/-- Hook `resetUserData`: clear all user-specific data and return focus-mode
settings to their defaults. -/
def resetUserData (s : HookS) : HookS :=
  { s with screenTimeToday := 0
           appUsageData := []
           processedNotifications := []
           notificationThrottleMap := []
           focusModeWhitelist := DEFAULT_WHITELIST_APPS
           isFocusMode := false
           dimInsteadOfBlock := true }

/-- Hook `resetDailyStats`. -/
def resetDailyStats2 (s : HookS) : HookS :=
  { s with screenTimeToday := 0, appUsageData := [] }

/-- One entry of the serialized `appUsageData` array written by
`persistUserData`. -/
def toSavedRec (p : String × UsageRec2) : SavedRec :=
  { name := p.1, time := p.2.time, type := p.2.type, lastActiveTime := p.2.lastActiveTime }

/-- Hook `persistUserData`: serialize the aggregate, tagged with the current
timestamp. -/
def persistUserData (s : HookS) (now : Nat) : SavedBlob :=
  { screenTimeToday := s.screenTimeToday
    appUsageData := s.appUsageData.map toSavedRec
    focusModeWhitelist := s.focusModeWhitelist
    isFocusMode := s.isFocusMode
    dimInsteadOfBlock := s.dimInsteadOfBlock
    timestamp := now }

/-- What a well-formed ledger entry becomes after a save/load round trip:
unchanged except that `sessionStart` is rebased to the load time. -/
def refreshRec (t : Nat) (p : String × UsageRec2) : String × UsageRec2 :=
  (p.1, { time := p.2.time, type := p.2.type, lastActiveTime := p.2.lastActiveTime, sessionStart := t })

/-- One step of the `parsedData.appUsageData.forEach` restore loop: entries
with a falsy name or type are skipped, and a falsy (zero) `lastActiveTime`
is replaced by the load time; `sessionStart` is the load time. -/
def loadRec (now : Nat) (m : List (String × UsageRec2)) (r : SavedRec) :
    List (String × UsageRec2) :=
  if r.name = "" || r.type = "" then m
  else
    setA r.name
      { time := r.time, type := r.type,
        lastActiveTime := if r.lastActiveTime = 0 then now else r.lastActiveTime,
        sessionStart := now } m

/-- Hook `loadUserData`: no stored blob, or a blob at least 24 hours old,
leaves the state untouched; a fresh blob restores the aggregate with the
whitelist merged with the defaults. -/
def loadUserData (blob : Option SavedBlob) (now : Nat) (s : HookS) : HookS :=
  match blob with
  | none => s
  | some b =>
    if now - b.timestamp < dayMs then
      { s with screenTimeToday := b.screenTimeToday
               focusModeWhitelist := jsDedup (b.focusModeWhitelist ++ DEFAULT_WHITELIST_APPS)
               isFocusMode := b.isFocusMode
               dimInsteadOfBlock := b.dimInsteadOfBlock
               appUsageData := b.appUsageData.foldl (loadRec now) s.appUsageData }
    else s

/-- The `localStorage` keyed by user id: `localStorage.setItem` under the
namespaced key. -/
def storePut (st : String → Option SavedBlob) (uid : String) (b : SavedBlob) :
    String → Option SavedBlob :=
  fun k => if k = uid then some b else st k

/-- Hook `setCurrentUser`: on a genuine user change, reset all user data and
then load the stored blob for the new user. -/
def setCurrentUser (s : HookS) (now : Nat) (uid : String) (blob : Option SavedBlob) : HookS :=
  if s.currentUserId = some uid then s
  else loadUserData blob now { (resetUserData s) with currentUserId := some uid }

/-- The hook variant's entry points: inbound window events, the 10-second
idle check, the 60-second accumulation tick (also run by the public
`getScreenTime`), the midnight reset, and a user switch (carrying the blob
the store holds for the new user). -/
inductive Ev2 where
  | activity (title : String) (owner : Option String)
  | idleCheck
  | tick
  | dailyReset
  | setUser (uid : String) (blob : Option SavedBlob)
deriving DecidableEq

def isActivity2 : Ev2 → Bool
  | Ev2.activity _ _ => true
  | _ => false

def isReset2 : Ev2 → Bool
  | Ev2.dailyReset => true
  | Ev2.setUser _ _ => true
  | _ => false

def step2 (s : HookS) (now : Nat) (e : Ev2) : HookS :=
  match e with
  | Ev2.activity title owner => (activityStep2 s now title owner).1
  | Ev2.idleCheck => { s with userIdleTime := idleCheckOn s.lastActivityTime now }
  | Ev2.tick => updateScreenTime2 s now
  | Ev2.dailyReset => resetDailyStats2 s
  | Ev2.setUser uid blob => setCurrentUser s now uid blob

def run2 (s : HookS) : List (Nat × Ev2) → HookS
  | [] => s
  | (t, e) :: rest => run2 (step2 s t e) rest

/-! ### Subscription registry (tray variant listener methods) -/

/-- The value passed to a listener when it is invoked. -/
inductive CallVal where
  | stv (n : Nat)
  | usage (l : List (String × UsageRec1))
  | fm (b : Bool)
deriving DecidableEq

/-- The listener arrays of the tray variant together with the state they
replay, with callbacks named by tokens. -/
structure SubSt where
  screenTimeToday : Nat
  isFocusMode : Bool
  appUsageData : List (String × UsageRec1)
  screenTimeListeners : List Nat
  appUsageListeners : List Nat
  focusModeListeners : List Nat
  listeners : List Nat
deriving DecidableEq

/-- `addScreenTimeListener`: push the callback, then invoke it synchronously
with the current total.  The second component lists the invocations the call
performs. -/
def addScreenTimeListener (s : SubSt) (cb : Nat) : SubSt × List (Nat × CallVal) :=
  ({ s with screenTimeListeners := s.screenTimeListeners ++ [cb] },
   [(cb, CallVal.stv s.screenTimeToday)])

/-- `addAppUsageListener`: push the callback, then invoke it synchronously
with the current usage snapshot. -/
def addAppUsageListener (s : SubSt) (cb : Nat) : SubSt × List (Nat × CallVal) :=
  ({ s with appUsageListeners := s.appUsageListeners ++ [cb] },
   [(cb, CallVal.usage s.appUsageData)])

/-- `addFocusModeListener`: push the callback, then invoke it synchronously
with the current focus-mode flag. -/
def addFocusModeListener (s : SubSt) (cb : Nat) : SubSt × List (Nat × CallVal) :=
  ({ s with focusModeListeners := s.focusModeListeners ++ [cb] },
   [(cb, CallVal.fm s.isFocusMode)])

/-- `addNotificationListener`: push the callback — and nothing else; the
alert channel performs no replay on subscribe. -/
def addNotificationListener (s : SubSt) (cb : Nat) : SubSt × List (Nat × CallVal) :=
  ({ s with listeners := s.listeners ++ [cb] }, [])

/-! ### Concrete states used by witnesses and counterexamples -/

/-- A tray state two genuine switches into a streak, cooldown long expired. -/
def exTrayC3 : TrayS :=
  { initTray 0 with windowSwitches := 2, lastActiveWindow := some ("B") }

/-- A reachable hook state whose ledger holds a record under the empty
identity (reachable per C8). -/
def exHookC6 : HookS :=
  { initHook 0 with
      appUsageData :=
        [("", { time := 7, type := "productive", lastActiveTime := 5, sessionStart := 5 })]
      focusModeWhitelist := DEFAULT_WHITELIST_APPS }

/-- A hook state with a well-formed ledger, for the C6 witness. -/
def exHookC6w : HookS :=
  { initHook 0 with
      screenTimeToday := 1234
      isFocusMode := true
      focusModeWhitelist := ["Visual Studio Code"]
      appUsageData :=
        [("Visual Studio Code",
          { time := 11, type := "productive", lastActiveTime := 9, sessionStart := 2 })] }

/-- A registry state with some current values, for C9. -/
def exSub : SubSt :=
  { screenTimeToday := 42
    isFocusMode := true
    appUsageData := [("VSCode", { time := 3, type := "productive", lastActiveTime := 9 })]
    screenTimeListeners := []
    appUsageListeners := []
    focusModeListeners := []
    listeners := [] }

/-- A hook state with an active window owning a ledger record, user not
idle, for the C10 counterexample. -/
def exHookC10 : HookS :=
  { initHook 0 with
      lastActiveWindow := some ("A")
      appUsageData :=
        [("A", { time := 0, type := "productive", lastActiveTime := 0, sessionStart := 0 })] }

/-! ### Theorems -/

theorem subAux_iff (needle : List Char) :
    ∀ hay : List Char, subAux needle hay = true ↔ needle <:+: hay := by
  intro hay
  induction hay with
  | nil =>
    simp [subAux, List.isEmpty_iff]
  | cons c t ih =>
    simp only [subAux, Bool.or_eq_true, ih, List.isPrefixOf_iff_prefix]
    constructor
    · rintro (h | h)
      · exact h.isInfix
      · exact h.trans (List.infix_cons List.infix_rfl)
    · intro h
      rcases List.infix_cons_iff.mp h with h | h
      · exact Or.inl h
      · exact Or.inr h

theorem jsIncludes_iff (hay needle : String) :
    jsIncludes hay needle = true ↔ needle.data <:+: hay.data :=
  subAux_iff needle.data hay.data

theorem biMatch_iff (a e : String) :
    biMatch a e = true ↔
      ((lc a).data <:+: (lc e).data ∨ (lc e).data <:+: (lc a).data) := by
  simp only [biMatch, Bool.or_eq_true, jsIncludes_iff]
  exact or_comm

theorem isAppInWhitelist_or (a : String) (wl : List String) (ha : a ≠ "") :
    isAppInWhitelist a wl = (isSystemApp a || wl.any (fun w => biMatch a w)) := by
  rw [isAppInWhitelist, if_neg ha]
  by_cases hs : isSystemApp a = true
  · simp [hs]
  · simp [Bool.not_eq_true] at hs
    simp [hs]

/-- C5: the whitelist membership test is a bidirectional case-insensitive
substring test.  For a non-empty identity the result is true exactly when
some entry of the default-exempt set or of the whitelist contains the
identity or is contained in it (case-insensitively); the empty identity is
never allowed; and the two symmetry examples of the specification hold. -/
theorem C5_whitelist_bidirectional_substring :
    (∀ (a : String) (wl : List String), a ≠ "" →
      (isAppInWhitelist a wl = true ↔
        ∃ e, (e ∈ DEFAULT_WHITELIST_APPS ∨ e ∈ wl) ∧
          ((lc a).data <:+: (lc e).data ∨ (lc e).data <:+: (lc a).data))) ∧
    (∀ wl : List String, isAppInWhitelist ("") wl = false) ∧
    isAppInWhitelist ("VSCode") (["code"]) = true ∧
    isAppInWhitelist ("code") (["VSCode"]) = true := by
  refine ⟨?_, ?_, by decide, by decide⟩
  · intro a wl ha
    rw [isAppInWhitelist_or a wl ha]
    simp only [Bool.or_eq_true, isSystemApp, List.any_eq_true, biMatch_iff]
    constructor
    · rintro (⟨e, he, hb⟩ | ⟨e, he, hb⟩)
      · exact ⟨e, Or.inl he, hb⟩
      · exact ⟨e, Or.inr he, hb⟩
    · rintro ⟨e, he | he, hb⟩
      · exact Or.inl ⟨e, he, hb⟩
      · exact Or.inr ⟨e, he, hb⟩
  · intro wl
    rw [isAppInWhitelist]
    simp

theorem C5_witness :
    ("VSCode" : String) ≠ "" ∧
    ∃ e, (e ∈ DEFAULT_WHITELIST_APPS ∨ e ∈ (["code"] : List String)) ∧
      ((lc ("VSCode")).data <:+: (lc e).data ∨ (lc e).data <:+: (lc ("VSCode")).data) :=
  ⟨by decide,
   (C5_whitelist_bidirectional_substring.1 ("VSCode") (["code"]) (by decide)).mp (by decide)⟩

theorem notify1_not_exempt (s : TrayS) (now : Nat) (a : String) (v : String × String)
    (h : (notifyFocusModeViolation1 s now a).2 = some v) : isSystemApp v.1 = false := by
  by_cases h1 : isSystemApp a = true
  · simp [notifyFocusModeViolation1, h1] at h
  · by_cases h2 : now - (s.notificationThrottleMap.lookup a).getD 0 < notificationThrottleTime1
    · simp [notifyFocusModeViolation1, h1, h2] at h
    · simp [notifyFocusModeViolation1, h1, h2] at h
      rw [← h]
      simpa using h1

theorem track1_not_exempt (s : TrayS) (now : Nat) (title : String) (owner : Option String)
    (v : String × String) (h : (trackAppUsage1 s now title owner).2 = some v) :
    isSystemApp v.1 = false := by
  unfold trackAppUsage1 at h
  dsimp only at h
  split at h
  · exact notify1_not_exempt _ _ _ _ h
  · simp at h

theorem step1_not_exempt (s : TrayS) (t : Nat) (e : Ev1) (v : String × String)
    (h : (step1 s t e).2.2 = some v) : isSystemApp v.1 = false := by
  cases e with
  | activity title owner => exact track1_not_exempt _ _ _ _ _ h
  | idleCheck => simp [step1] at h
  | tick => simp [step1] at h
  | switchFire => simp [step1] at h
  | dailyReset => simp [step1] at h

/-- C4: an identity that case-insensitively contains, or is contained by, an
entry of the immutable default-exempt set is never the subject of an emitted
focus-mode violation — over every run of the tray machine, hence for every
whitelist (including the empty one) and with focus mode enabled. -/
theorem C4_default_exempt_never_violated :
    ∀ (s : TrayS) (evs : List (Nat × Ev1)) (a : String),
      isSystemApp a = true → ∀ m : String, (a, m) ∉ (run1 s evs).2.2 := by
  intro s evs
  induction evs generalizing s with
  | nil => intro a _ m hm; simp [run1] at hm
  | cons p rest ih =>
    intro a ha m hm
    obtain ⟨t, e⟩ := p
    rw [run1] at hm
    rcases List.mem_append.mp hm with hpre | hrest
    · revert hpre
      split
      · next v hv =>
        intro hpre
        rw [List.mem_singleton] at hpre
        have := step1_not_exempt s t e v hv
        rw [← hpre] at this
        simp [ha] at this
      · intro hpre; simp at hpre
    · exact ih (step1 s t e).1 a ha m hrest

theorem C4_witness :
    isSystemApp ("Electron") = true ∧
    (("Electron" : String), ("m" : String)) ∉
      (run1 (initTray 0) ([(5, Ev1.activity ("Electron - Main") none)])).2.2 :=
  ⟨by decide,
   C4_default_exempt_never_violated (initTray 0)
     ([(5, Ev1.activity ("Electron - Main") none)]) ("Electron") (by decide) ("m")⟩

theorem track1_insert_frame (s : TrayS) (now : Nat) (core ty : String) :
    (track1_insert s now core ty).lastNotificationTime = s.lastNotificationTime ∧
    (track1_insert s now core ty).windowSwitches = s.windowSwitches ∧
    (track1_insert s now core ty).distractionCount = s.distractionCount ∧
    (track1_insert s now core ty).focusScore = s.focusScore := by
  unfold track1_insert
  split
  all_goals exact ⟨rfl, rfl, rfl, rfl⟩

theorem track1_ledger_frame (s : TrayS) (now : Nat) (core ty : String) :
    (track1_ledger s now core ty).lastNotificationTime = s.lastNotificationTime ∧
    (track1_ledger s now core ty).windowSwitches = s.windowSwitches ∧
    (track1_ledger s now core ty).distractionCount = s.distractionCount ∧
    (track1_ledger s now core ty).focusScore = s.focusScore := by
  have hf := track1_insert_frame s now core ty
  unfold track1_ledger
  dsimp only
  split
  · exact hf
  · exact hf

theorem notify1_frame (s : TrayS) (now : Nat) (a : String) :
    (notifyFocusModeViolation1 s now a).1.lastNotificationTime = s.lastNotificationTime ∧
    (notifyFocusModeViolation1 s now a).1.windowSwitches = s.windowSwitches ∧
    (notifyFocusModeViolation1 s now a).1.distractionCount = s.distractionCount ∧
    (notifyFocusModeViolation1 s now a).1.focusScore = s.focusScore := by
  unfold notifyFocusModeViolation1
  dsimp only
  repeat' split
  all_goals exact ⟨rfl, rfl, rfl, rfl⟩

theorem track1_lastNotif (s : TrayS) (now : Nat) (title : String) (owner : Option String) :
    (trackAppUsage1 s now title owner).1.lastNotificationTime = s.lastNotificationTime := by
  unfold trackAppUsage1
  dsimp only
  split
  · exact ((notify1_frame _ _ _).1).trans (track1_ledger_frame _ _ _ _).1
  · exact (track1_ledger_frame _ _ _ _).1

theorem hws1_lastNotif (s : TrayS) (now : Nat) (w : String) :
    ((handleWindowSwitch1 s now w).2 = true →
      (handleWindowSwitch1 s now w).1.lastNotificationTime = now ∧
        s.lastNotificationTime + notificationCooldown < now) ∧
    ((handleWindowSwitch1 s now w).2 = false →
      (handleWindowSwitch1 s now w).1.lastNotificationTime = s.lastNotificationTime) := by
  by_cases h1 : s.lastActiveWindow = some w
  · simp [handleWindowSwitch1, h1]
  · by_cases h2 : switchThreshold ≤ s.windowSwitches + 1
    · by_cases h3 : notificationCooldown < now - s.lastNotificationTime
      · simp [handleWindowSwitch1, h1, h2, h3]
        omega
      · simp [handleWindowSwitch1, h1, h2, h3]
    · simp [handleWindowSwitch1, h1, h2]

theorem hrws1_lastNotif (s : TrayS) (now : Nat) (title : String) :
    ((handleRealWindowSwitch1 s now title).2 = true →
      (handleRealWindowSwitch1 s now title).1.lastNotificationTime = now ∧
        s.lastNotificationTime + notificationCooldown < now) ∧
    ((handleRealWindowSwitch1 s now title).2 = false →
      (handleRealWindowSwitch1 s now title).1.lastNotificationTime = s.lastNotificationTime) := by
  unfold handleRealWindowSwitch1
  dsimp only
  split
  · exact hws1_lastNotif _ now title
  · exact hws1_lastNotif s now title

theorem step1_lastNotif (s : TrayS) (t : Nat) (e : Ev1) :
    ((step1 s t e).2.1 = true →
      (step1 s t e).1.lastNotificationTime = t ∧
        s.lastNotificationTime + notificationCooldown < t) ∧
    ((step1 s t e).2.1 = false →
      (step1 s t e).1.lastNotificationTime = s.lastNotificationTime) := by
  cases e with
  | activity title owner =>
    refine ⟨fun h => ?_, fun h => ?_⟩
    · have h1 := (hrws1_lastNotif s t title).1 h
      exact ⟨(track1_lastNotif (handleRealWindowSwitch1 s t title).1 t title owner).trans h1.1,
             h1.2⟩
    · have h1 := (hrws1_lastNotif s t title).2 h
      exact (track1_lastNotif (handleRealWindowSwitch1 s t title).1 t title owner).trans h1
  | idleCheck => exact ⟨fun h => absurd h Bool.false_ne_true, fun _ => rfl⟩
  | tick =>
    refine ⟨fun h => absurd h Bool.false_ne_true, fun _ => ?_⟩
    show (updateScreenTime1 s t).lastNotificationTime = s.lastNotificationTime
    unfold updateScreenTime1
    split <;> rfl
  | switchFire =>
    refine ⟨fun h => absurd h Bool.false_ne_true, fun _ => ?_⟩
    show (match s.switchDeadline with
          | some d => if d ≤ t then { s with windowSwitches := 0, switchDeadline := none } else s
          | none => s).lastNotificationTime = s.lastNotificationTime
    cases s.switchDeadline with
    | some d => dsimp only; split <;> rfl
    | none => rfl
  | dailyReset => exact ⟨fun h => absurd h Bool.false_ne_true, fun _ => rfl⟩

theorem run1_cons (s : TrayS) (t : Nat) (e : Ev1) (rest : List (Nat × Ev1)) :
    run1 s ((t, e) :: rest) =
      ((run1 (step1 s t e).1 rest).1,
       (if (step1 s t e).2.1 then [t] else []) ++ (run1 (step1 s t e).1 rest).2.1,
       (match (step1 s t e).2.2 with
        | some a => [a]
        | none => []) ++ (run1 (step1 s t e).1 rest).2.2) := rfl

theorem run1_emissions (evs : List (Nat × Ev1)) : ∀ s : TrayS,
    s.lastNotificationTime ≤ (run1 s evs).1.lastNotificationTime ∧
    (∀ x ∈ (run1 s evs).2.1,
      s.lastNotificationTime + notificationCooldown < x ∧
        x ≤ (run1 s evs).1.lastNotificationTime) ∧
    ((run1 s evs).2.1).Pairwise (fun a b => a + notificationCooldown < b) := by
  induction evs with
  | nil => intro s; simp [run1]
  | cons p rest ih =>
    intro s
    obtain ⟨t, e⟩ := p
    obtain ⟨ihmono, ihall, ihpw⟩ := ih (step1 s t e).1
    rw [run1_cons]
    dsimp only
    by_cases he : (step1 s t e).2.1 = true
    · have hem := (step1_lastNotif s t e).1 he
      rw [hem.1] at ihmono ihall
      rw [he]
      simp only [if_true, List.singleton_append]
      refine ⟨by omega, ?_, ?_⟩
      · intro x hx
        rcases List.mem_cons.mp hx with rfl | hx
        · exact ⟨hem.2, by omega⟩
        · obtain ⟨ha, hb⟩ := ihall x hx
          exact ⟨by omega, hb⟩
      · rw [List.pairwise_cons]
        exact ⟨fun x hx => (ihall x hx).1, ihpw⟩
    · have hne : (step1 s t e).2.1 = false := by simpa using he
      have hpres := (step1_lastNotif s t e).2 hne
      rw [hpres] at ihmono ihall
      rw [hne]
      simp only [Bool.false_eq_true, if_false, List.nil_append]
      exact ⟨ihmono, ihall, ihpw⟩

/-- C3: over every run of the tray machine, a window-switch event emits the
distraction-streak signal exactly when it is a genuine switch that brings the
counter to the threshold (3) with the 180-second cooldown since the previous
signal elapsed; each emission increments the distraction count, lowers the
focus score by 5 (floored at 0 via the `Math.max` clamp), resets the counter,
and stamps the cooldown clock; a non-emitting event leaves count, score and
cooldown clock unchanged; no signal fires within the cooldown of the
previous one; and any two signal times in a run are more than the cooldown
apart. -/
theorem C3_distraction_streak :
    (∀ (s : TrayS) (now : Nat) (w : String),
      s.focusScore = 100 - s.distractionCount * 5 →
      ((handleWindowSwitch1 s now w).2 = true ↔
        (s.lastActiveWindow ≠ some w ∧ switchThreshold ≤ s.windowSwitches + 1 ∧
          s.lastNotificationTime + notificationCooldown < now)) ∧
      ((handleWindowSwitch1 s now w).2 = true →
        (handleWindowSwitch1 s now w).1.distractionCount = s.distractionCount + 1 ∧
        (handleWindowSwitch1 s now w).1.focusScore = s.focusScore - 5 ∧
        (handleWindowSwitch1 s now w).1.windowSwitches = 0 ∧
        (handleWindowSwitch1 s now w).1.lastNotificationTime = now) ∧
      ((handleWindowSwitch1 s now w).2 = false →
        (handleWindowSwitch1 s now w).1.distractionCount = s.distractionCount ∧
        (handleWindowSwitch1 s now w).1.focusScore = s.focusScore ∧
        (handleWindowSwitch1 s now w).1.lastNotificationTime = s.lastNotificationTime) ∧
      (now ≤ s.lastNotificationTime + notificationCooldown →
        (handleWindowSwitch1 s now w).2 = false)) ∧
    (∀ (s : TrayS) (evs : List (Nat × Ev1)),
      ((run1 s evs).2.1).Pairwise (fun a b => a + notificationCooldown < b)) := by
  constructor
  · intro s now w hinv
    by_cases h1 : s.lastActiveWindow = some w
    · simp [handleWindowSwitch1, h1]
    · by_cases h2 : switchThreshold ≤ s.windowSwitches + 1
      · by_cases h3 : notificationCooldown < now - s.lastNotificationTime
        · simp [handleWindowSwitch1, h1, h2, h3]
          refine ⟨by omega, by omega, by omega⟩
        · simp [handleWindowSwitch1, h1, h2, h3]
          omega
      · simp [handleWindowSwitch1, h1, h2]
  · intro s evs
    exact (run1_emissions evs s).2.2

theorem C3_witness :
    exTrayC3.focusScore = 100 - exTrayC3.distractionCount * 5 ∧
    (handleWindowSwitch1 exTrayC3 200000 ("C")).2 = true ∧
    (handleWindowSwitch1 exTrayC3 200000 ("C")).1.distractionCount =
      exTrayC3.distractionCount + 1 := by
  have hinv : exTrayC3.focusScore = 100 - exTrayC3.distractionCount * 5 := by decide
  have h := C3_distraction_streak.1 exTrayC3 200000 ("C") hinv
  have hem : (handleWindowSwitch1 exTrayC3 200000 ("C")).2 = true := by
    apply h.1.mpr
    refine ⟨by decide, by decide, by decide⟩
  exact ⟨hinv, hem, (h.2.1 hem).1⟩

theorem hws2_screenTime (s : HookS) (now : Nat) (w : String) :
    (handleWindowSwitch2 s now w).screenTimeToday = s.screenTimeToday := by
  unfold handleWindowSwitch2
  split <;> rfl

theorem hrws2_screenTime (s : HookS) (now : Nat) (title : String) :
    (handleRealWindowSwitch2 s now title).screenTimeToday = s.screenTimeToday := by
  unfold handleRealWindowSwitch2
  dsimp only
  split
  · exact hws2_screenTime _ now title
  · exact hws2_screenTime s now title

theorem track2_ledger_screenTime (s : HookS) (now : Nat) (core ty : String) :
    (track2_ledger s now core ty).screenTimeToday = s.screenTimeToday := by
  unfold track2_ledger
  dsimp only
  split <;> rfl

theorem notify2_screenTime (s : HookS) (now : Nat) (a : String) :
    (notifyFocusModeViolation2 s now a).1.screenTimeToday = s.screenTimeToday := by
  unfold notifyFocusModeViolation2
  dsimp only
  repeat' split
  all_goals rfl

theorem track2_screenTime (s : HookS) (now : Nat) (title : String) (owner : Option String) :
    (trackAppUsage2 s now title owner).1.screenTimeToday = s.screenTimeToday := by
  unfold trackAppUsage2
  dsimp only
  split
  · exact (notify2_screenTime _ _ _).trans (track2_ledger_screenTime _ _ _ _)
  · exact track2_ledger_screenTime _ _ _ _

theorem act2_screenTime (s : HookS) (now : Nat) (title : String) (owner : Option String) :
    ((activityStep2 s now title owner).1).screenTimeToday = s.screenTimeToday :=
  (track2_screenTime (handleRealWindowSwitch2 s now title) now title owner).trans
    (hrws2_screenTime s now title)

/-- C1: across every non-reset transition of the hook machine the
accumulated screen time never decreases, and it strictly increases only on
an accumulation tick taken while the idle flag is off
(`userIdleTime < idleThreshold`).  The daily reset and the user switch are
the only transitions allowed to lower it. -/
theorem C1_screen_time_monotone :
    ∀ (s : HookS) (t : Nat) (e : Ev2),
      isReset2 e = false →
      s.screenTimeToday ≤ (step2 s t e).screenTimeToday ∧
      (s.screenTimeToday < (step2 s t e).screenTimeToday →
        e = Ev2.tick ∧ s.userIdleTime < idleThreshold) := by
  intro s t e hr
  cases e with
  | activity title owner =>
    have hp : (step2 s t (Ev2.activity title owner)).screenTimeToday = s.screenTimeToday :=
      act2_screenTime s t title owner
    rw [hp]
    exact ⟨Nat.le_refl _, fun h => absurd h (lt_irrefl _)⟩
  | idleCheck => exact ⟨Nat.le_refl _, fun h => absurd h (lt_irrefl _)⟩
  | tick =>
    by_cases hi : s.userIdleTime < idleThreshold
    · have hp : (step2 s t Ev2.tick).screenTimeToday =
          s.screenTimeToday + (t - s.lastScreenTimeUpdate) := by
        show (updateScreenTime2 s t).screenTimeToday = _
        simp [updateScreenTime2, hi]
      rw [hp]
      exact ⟨Nat.le_add_right _ _, fun _ => ⟨rfl, hi⟩⟩
    · have hp : (step2 s t Ev2.tick).screenTimeToday = s.screenTimeToday := by
        show (updateScreenTime2 s t).screenTimeToday = _
        simp [updateScreenTime2, hi]
      rw [hp]
      exact ⟨Nat.le_refl _, fun h => absurd h (lt_irrefl _)⟩
  | dailyReset => simp [isReset2] at hr
  | setUser uid blob => simp [isReset2] at hr

theorem C1_witness :
    isReset2 Ev2.idleCheck = false ∧
    (initHook 0).screenTimeToday ≤ (step2 (initHook 0) 5 Ev2.idleCheck).screenTimeToday :=
  ⟨rfl, (C1_screen_time_monotone (initHook 0) 5 Ev2.idleCheck rfl).1⟩

theorem step2_gap_frame (s : HookS) (t : Nat) (e : Ev2) (h : isActivity2 e = false) :
    (step2 s t e).lastActivityTime = s.lastActivityTime ∧
    (e ≠ Ev2.idleCheck → (step2 s t e).userIdleTime = s.userIdleTime) := by
  cases e with
  | activity title owner => simp [isActivity2] at h
  | idleCheck => exact ⟨rfl, fun hne => absurd rfl hne⟩
  | tick =>
    constructor
    · show (updateScreenTime2 s t).lastActivityTime = _
      unfold updateScreenTime2
      split <;> rfl
    · intro _
      show (updateScreenTime2 s t).userIdleTime = _
      unfold updateScreenTime2
      split <;> rfl
  | dailyReset => exact ⟨rfl, fun _ => rfl⟩
  | setUser uid blob =>
    constructor
    · show (setCurrentUser s t uid blob).lastActivityTime = _
      unfold setCurrentUser loadUserData resetUserData
      dsimp only
      repeat' split
      all_goals rfl
    · intro _
      show (setCurrentUser s t uid blob).userIdleTime = _
      unfold setCurrentUser loadUserData resetUserData
      dsimp only
      repeat' split
      all_goals rfl

theorem run2_gap_idle (t1 : Nat) :
    ∀ (evs : List (Nat × Ev2)) (s : HookS),
      s.lastActivityTime = t1 →
      (∀ p ∈ evs, isActivity2 p.2 = false) →
      (∀ c : Nat, (c, Ev2.idleCheck) ∈ evs → t1 + idleThreshold < c) →
      (run2 s evs).lastActivityTime = t1 ∧
        ((idleThreshold < s.userIdleTime ∨ ∃ c : Nat, (c, Ev2.idleCheck) ∈ evs) →
          idleThreshold < (run2 s evs).userIdleTime) := by
  intro evs
  induction evs with
  | nil =>
    intro s h1 _ _
    refine ⟨h1, fun hyp => ?_⟩
    rcases hyp with hyp | ⟨c, hc⟩
    · exact hyp
    · exact absurd hc (List.not_mem_nil _)
  | cons p rest ih =>
    intro s h1 hna hch
    obtain ⟨t, e⟩ := p
    have hnae : isActivity2 e = false := hna (t, e) (List.mem_cons_self _ _)
    have hna' : ∀ p ∈ rest, isActivity2 p.2 = false := fun p hp => hna p (List.mem_cons_of_mem _ hp)
    have hch' : ∀ c : Nat, (c, Ev2.idleCheck) ∈ rest → t1 + idleThreshold < c :=
      fun c hc => hch c (List.mem_cons_of_mem _ hc)
    have hframe := step2_gap_frame s t e hnae
    have h1' : (step2 s t e).lastActivityTime = t1 := hframe.1.trans h1
    have hrun : run2 s ((t, e) :: rest) = run2 (step2 s t e) rest := rfl
    rw [hrun]
    obtain ⟨ihl, ihi⟩ := ih (step2 s t e) h1' hna' hch'
    refine ⟨ihl, fun hyp => ?_⟩
    by_cases heq : e = Ev2.idleCheck
    · subst heq
      have hc : t1 + idleThreshold < t := hch t (List.mem_cons_self _ _)
      have hidle : idleThreshold < (step2 s t Ev2.idleCheck).userIdleTime := by
        show idleThreshold < idleCheckOn s.lastActivityTime t
        rw [h1]
        unfold idleCheckOn
        have hlt : idleThreshold < t - t1 := by omega
        rw [if_pos hlt]
        exact hlt
      exact ihi (Or.inl hidle)
    · have hpres := hframe.2 heq
      rcases hyp with hyp | ⟨c, hc⟩
      · exact ihi (Or.inl (by rw [hpres]; exact hyp))
      · rcases List.mem_cons.mp hc with hhead | htail
        · exact absurd (congrArg Prod.snd hhead).symm heq
        · exact ihi (Or.inr ⟨c, htail⟩)

/-- C2: after an activity event at time `t1`, if no further activity occurs
and an idle check observes a gap exceeding the 60-second idle threshold,
then the next accumulation tick adds zero time to the screen-time total and
to every usage record, while still advancing the previous-tick timestamp to
the tick's time — idle time is discarded, not queued. -/
theorem C2_idle_gap_tick_adds_zero :
    ∀ (s : HookS) (t1 : Nat) (evs : List (Nat × Ev2)) (t : Nat),
      s.lastActivityTime = t1 →
      (∀ p ∈ evs, isActivity2 p.2 = false) →
      (∀ c : Nat, (c, Ev2.idleCheck) ∈ evs → t1 + idleThreshold < c) →
      (∃ c : Nat, (c, Ev2.idleCheck) ∈ evs) →
      (updateScreenTime2 (run2 s evs) t).screenTimeToday = (run2 s evs).screenTimeToday ∧
      (updateScreenTime2 (run2 s evs) t).appUsageData = (run2 s evs).appUsageData ∧
      (updateScreenTime2 (run2 s evs) t).lastScreenTimeUpdate = t := by
  intro s t1 evs t h1 hna hch hex
  have hidle := (run2_gap_idle t1 evs s h1 hna hch).2 (Or.inr hex)
  have hni : ¬ (run2 s evs).userIdleTime < idleThreshold := by omega
  simp [updateScreenTime2, hni]

theorem C2_witness :
    (initHook 0).lastActivityTime = 0 ∧
    (updateScreenTime2 (run2 (initHook 0) ([((70001 : Nat), Ev2.idleCheck)])) 130000).screenTimeToday =
      (run2 (initHook 0) ([((70001 : Nat), Ev2.idleCheck)])).screenTimeToday := by
  have hna : ∀ p ∈ ([((70001 : Nat), Ev2.idleCheck)] : List (Nat × Ev2)), isActivity2 p.2 = false := by
    intro p hp
    rw [List.mem_singleton] at hp
    subst hp
    rfl
  have hch : ∀ c : Nat, (c, Ev2.idleCheck) ∈ ([((70001 : Nat), Ev2.idleCheck)] : List (Nat × Ev2)) →
      0 + idleThreshold < c := by
    intro c hc
    rw [List.mem_singleton, Prod.mk.injEq] at hc
    obtain ⟨hc1, -⟩ := hc
    subst hc1
    decide
  exact ⟨rfl,
    (C2_idle_gap_tick_adds_zero (initHook 0) 0 ([((70001 : Nat), Ev2.idleCheck)]) 130000 rfl hna
      hch ⟨70001, List.mem_singleton.mpr rfl⟩).1⟩


theorem mem_jsDedupAux : ∀ (l seen : List String) (x : String),
    x ∈ jsDedupAux seen l ↔ x ∈ l ∧ x ∉ seen := by
  intro l
  induction l with
  | nil => intro seen x; simp [jsDedupAux]
  | cons a t ih =>
    intro seen x
    by_cases ha : a ∈ seen
    · rw [show jsDedupAux seen (a :: t) = jsDedupAux seen t from by rw [jsDedupAux, if_pos ha]]
      rw [ih seen x]
      constructor
      · rintro ⟨hx, hns⟩
        exact ⟨List.mem_cons_of_mem _ hx, hns⟩
      · rintro ⟨hx, hns⟩
        rcases List.mem_cons.mp hx with rfl | hx
        · exact absurd ha hns
        · exact ⟨hx, hns⟩
    · rw [show jsDedupAux seen (a :: t) = a :: jsDedupAux (a :: seen) t from by
        rw [jsDedupAux, if_neg ha]]
      constructor
      · intro hx
        rcases List.mem_cons.mp hx with rfl | hx
        · exact ⟨List.mem_cons_self _ _, ha⟩
        · obtain ⟨h1, h2⟩ := (ih (a :: seen) x).mp hx
          exact ⟨List.mem_cons_of_mem _ h1, fun hs => h2 (List.mem_cons_of_mem _ hs)⟩
      · rintro ⟨hx, hns⟩
        rcases List.mem_cons.mp hx with rfl | hx
        · exact List.mem_cons_self _ _
        · by_cases hxa : x = a
          · subst hxa
            exact List.mem_cons_self _ _
          · refine List.mem_cons_of_mem _ ((ih (a :: seen) x).mpr ⟨hx, ?_⟩)
            intro hmem
            rcases List.mem_cons.mp hmem with h | h
            · exact hxa h
            · exact hns h

theorem mem_jsDedup (l : List String) (x : String) : x ∈ jsDedup l ↔ x ∈ l := by
  rw [jsDedup, mem_jsDedupAux]
  simp

theorem setA_not_mem {α : Type} (k : String) (v : α) :
    ∀ m : List (String × α), k ∉ m.map Prod.fst → setA k v m = m ++ [(k, v)] := by
  intro m
  induction m with
  | nil => intro _; rfl
  | cons q t ih =>
    intro h
    obtain ⟨k', v'⟩ := q
    rw [List.map_cons, List.mem_cons] at h
    push_neg at h
    have hk : ¬ (k' = k) := fun hh => h.1 hh.symm
    rw [show setA k v ((k', v') :: t) = (k', v') :: setA k v t from by rw [setA, if_neg hk]]
    rw [ih h.2]
    rfl

theorem loadRec_foldl (t : Nat) :
    ∀ (l acc : List (String × UsageRec2)),
      (l.map Prod.fst).Nodup →
      (∀ p ∈ l, p.1 ≠ "" ∧ p.2.type ≠ "" ∧ p.2.lastActiveTime ≠ 0) →
      (∀ p ∈ l, p.1 ∉ acc.map Prod.fst) →
      (l.map toSavedRec).foldl (loadRec t) acc = acc ++ l.map (refreshRec t) := by
  intro l
  induction l with
  | nil => intro acc _ _ _; simp
  | cons p l2 ih =>
    intro acc hnd hrec hacc
    obtain ⟨hp, hpt⟩ := List.forall_mem_cons.mp hrec
    obtain ⟨hpa, hta⟩ := List.forall_mem_cons.mp hacc
    rw [List.map_cons, List.foldl_cons]
    have hstep : loadRec t acc (toSavedRec p) = acc ++ [refreshRec t p] := by
      rw [loadRec, toSavedRec]
      rw [if_neg (by simp [hp.1, hp.2.1])]
      rw [if_neg hp.2.2]
      exact setA_not_mem _ _ acc hpa
    rw [hstep]
    rw [List.map_cons] at hnd
    have hknot : p.1 ∉ l2.map Prod.fst := (List.nodup_cons.mp hnd).1
    have hnd2 : (l2.map Prod.fst).Nodup := (List.nodup_cons.mp hnd).2
    have hacc2 : ∀ q ∈ l2, q.1 ∉ (acc ++ [refreshRec t p]).map Prod.fst := by
      intro q hq
      rw [List.map_append, List.mem_append]
      rintro (hin | hin)
      · exact hta q hq hin
      · have hq1 : q.1 = p.1 := List.mem_singleton.mp (by simpa [refreshRec] using hin)
        exact hknot (hq1 ▸ List.mem_map_of_mem Prod.fst hq)
    rw [ih _ hnd2 hpt hacc2]
    rw [List.map_cons, List.append_assoc]
    rfl

theorem C6_counterexample :
    (loadUserData (some (persistUserData exHookC6 0)) 1 (resetUserData exHookC6)).appUsageData = [] ∧
    exHookC6.appUsageData ≠ [] ∧
    (1 : Nat) - (persistUserData exHookC6 0).timestamp < dayMs := by
  refine ⟨?_, by decide, by decide⟩
  rfl

/-- C6 (amended): saving and then loading under the same user key while the
blob is younger than 24 hours reproduces the aggregate — screen time,
focus-mode settings, and the whitelist as the union of the saved whitelist
with the default-exempt set — provided every usage record has a nonempty
name and type and a nonzero `lastActiveTime` (records failing those truthy
guards are dropped or altered by the restore loop, and `sessionStart` is
rebased to the load time); loading an absent blob, or one at least 24 hours
old, leaves the caller's fresh defaults untouched. -/
theorem C6_amended_roundtrip :
    (∀ (st : String → Option SavedBlob) (uid : String) (s s₂ : HookS) (now now' : Nat),
      (s.appUsageData.map Prod.fst).Nodup →
      (∀ p ∈ s.appUsageData, p.1 ≠ "" ∧ p.2.type ≠ "" ∧ p.2.lastActiveTime ≠ 0) →
      now' - now < dayMs →
      storePut st uid (persistUserData s now) uid = some (persistUserData s now) ∧
      (loadUserData (some (persistUserData s now)) now' (resetUserData s₂)).screenTimeToday =
        s.screenTimeToday ∧
      (loadUserData (some (persistUserData s now)) now' (resetUserData s₂)).isFocusMode =
        s.isFocusMode ∧
      (loadUserData (some (persistUserData s now)) now' (resetUserData s₂)).dimInsteadOfBlock =
        s.dimInsteadOfBlock ∧
      (∀ x : String,
        x ∈ (loadUserData (some (persistUserData s now)) now' (resetUserData s₂)).focusModeWhitelist
          ↔ x ∈ s.focusModeWhitelist ∨ x ∈ DEFAULT_WHITELIST_APPS) ∧
      (loadUserData (some (persistUserData s now)) now' (resetUserData s₂)).appUsageData =
        s.appUsageData.map (refreshRec now')) ∧
    (∀ (b : SavedBlob) (now₂ : Nat) (s₃ : HookS),
      dayMs ≤ now₂ - b.timestamp → loadUserData (some b) now₂ s₃ = s₃) ∧
    (∀ (now₂ : Nat) (s₃ : HookS), loadUserData none now₂ s₃ = s₃) := by
  refine ⟨?_, ?_, fun _ _ => rfl⟩
  · intro st uid s s₂ now now' hnd hrec hfresh
    have hfresh' : now' - (persistUserData s now).timestamp < dayMs := hfresh
    have hunf : loadUserData (some (persistUserData s now)) now' (resetUserData s₂) =
        { (resetUserData s₂) with
            screenTimeToday := (persistUserData s now).screenTimeToday
            focusModeWhitelist :=
              jsDedup ((persistUserData s now).focusModeWhitelist ++ DEFAULT_WHITELIST_APPS)
            isFocusMode := (persistUserData s now).isFocusMode
            dimInsteadOfBlock := (persistUserData s now).dimInsteadOfBlock
            appUsageData := (persistUserData s now).appUsageData.foldl (loadRec now')
              (resetUserData s₂).appUsageData } := by
      rw [loadUserData]
      rw [if_pos hfresh']
    refine ⟨by simp [storePut], ?_, ?_, ?_, ?_, ?_⟩
    · rw [hunf]
      rfl
    · rw [hunf]
      rfl
    · rw [hunf]
      rfl
    · intro x
      rw [hunf]
      show x ∈ jsDedup (s.focusModeWhitelist ++ DEFAULT_WHITELIST_APPS) ↔ _
      rw [mem_jsDedup, List.mem_append]
    · rw [hunf]
      show (s.appUsageData.map toSavedRec).foldl (loadRec now') [] = _
      rw [loadRec_foldl now' s.appUsageData [] hnd hrec (by simp)]
      rfl
  · intro b now₂ s₃ hold
    rw [loadUserData]
    rw [if_neg (by omega)]

theorem C6_witness :
    ((exHookC6w.appUsageData.map Prod.fst).Nodup) ∧
    (∀ p ∈ exHookC6w.appUsageData, p.1 ≠ "" ∧ p.2.type ≠ "" ∧ p.2.lastActiveTime ≠ 0) ∧
    ((1 : Nat) - 0 < dayMs) ∧
    (loadUserData (some (persistUserData exHookC6w 0)) 1 (resetUserData exHookC6w)).screenTimeToday =
      exHookC6w.screenTimeToday := by
  have hnd : (exHookC6w.appUsageData.map Prod.fst).Nodup := by decide
  have hrec : ∀ p ∈ exHookC6w.appUsageData, p.1 ≠ "" ∧ p.2.type ≠ "" ∧ p.2.lastActiveTime ≠ 0 := by
    decide
  have hfresh : (1 : Nat) - 0 < dayMs := by decide
  exact ⟨hnd, hrec, hfresh,
    ((C6_amended_roundtrip.1 (fun _ => none) ("u1") exHookC6w exHookC6w 0 1 hnd hrec
      hfresh).2).1⟩

theorem find?_map_succ (p : Nat → Bool) :
    ∀ l : List Nat, (l.map Nat.succ).find? p = (l.find? (fun i => p (i + 1))).map Nat.succ := by
  intro l
  induction l with
  | nil => rfl
  | cons a t ih =>
    by_cases h : p (a + 1) = true
    · simp [List.find?_cons, Nat.succ_eq_add_one, h]
    · simp [List.find?_cons, Nat.succ_eq_add_one, h, ih]

theorem findSplit_eq_specSplit :
    ∀ cs : List Char, findSplit cs = (specSplit cs).map (fun i => cs.take i) := by
  intro cs
  induction cs with
  | nil => rfl
  | cons c t ih =>
    by_cases hsep : sepAt (c :: t) = true
    · rw [show findSplit (c :: t) = some [] from by rw [findSplit, if_pos hsep]]
      have hzero : specSplit (c :: t) = some 0 := by
        rw [specSplit, List.range_succ_eq_map]
        rw [List.find?_cons_of_pos _ (by simp [cleanBefore, hsep])]
      rw [hzero]
      rfl
    · by_cases hdot : dotOk c = true
      · have hspec : specSplit (c :: t) = (specSplit t).map Nat.succ := by
          rw [specSplit, specSplit, List.range_succ_eq_map]
          rw [List.find?_cons_of_neg _ (by simp [cleanBefore, hsep])]
          rw [find?_map_succ]
          congr 1
          have hfun : (fun i => cleanBefore (c :: t) (i + 1) &&
              (sepAt ((c :: t).drop (i + 1)) || decide (i + 1 = (c :: t).length))) =
              (fun i => cleanBefore t i && (sepAt (t.drop i) || decide (i = t.length))) := by
            funext i
            have h1 : cleanBefore (c :: t) (i + 1) = cleanBefore t i := by
              simp [cleanBefore, List.take_succ_cons, hdot]
            have h2 : (c :: t).drop (i + 1) = t.drop i := rfl
            have h3 : decide (i + 1 = (c :: t).length) = decide (i = t.length) := by
              apply decide_eq_decide.mpr
              simp
            rw [h1, h2, h3]
          rw [hfun]
          rfl
        rw [show findSplit (c :: t) = (findSplit t).map (fun p => c :: p) from by
          rw [findSplit, if_neg hsep, if_pos hdot]]
        rw [ih, hspec]
        cases specSplit t with
        | none => rfl
        | some i => rfl
      · rw [show findSplit (c :: t) = none from by rw [findSplit, if_neg hsep, if_neg hdot]]
        have hnone : specSplit (c :: t) = none := by
          rw [specSplit]
          apply List.find?_eq_none.mpr
          intro i _
          cases i with
          | zero =>
            simp [cleanBefore, hsep]
          | succ j =>
            have hcb : cleanBefore (c :: t) (j + 1) = false := by
              simp [cleanBefore, List.take_succ_cons, hdot]
            simp [hcb]
        rw [hnone]
        rfl

theorem C7_counterexample :
    claimExtract ("Foo:Bar") = ("Foo") ∧ extractAppName ("Foo:Bar") = ("Foo:Bar") ∧
    claimExtract (" - abc") = ("") ∧ extractAppName (" - abc") = ("- abc") := by
  decide

/-- C7 (amended): the normalizer returns the leading segment of the title up
to the first separator — hyphen/en-dash/em-dash surrounded by whitespace, a
pipe surrounded by whitespace, a colon preceded by whitespace, or a digit
preceded by whitespace — trimmed; when no separator occurs, or when the
leading segment trims to the empty string (and when the lazy prefix hits a
bare line terminator), the whole trimmed title is returned instead; empty
input yields the empty identity.  "YouTube - Cat Videos" normalizes to
"YouTube" and "Visual Studio Code" to itself. -/
theorem C7_amended_normalizer :
    (∀ s : String, extractAppName s = specExtract s) ∧
    extractAppName ("YouTube - Cat Videos") = ("YouTube") ∧
    extractAppName ("Visual Studio Code") = ("Visual Studio Code") ∧
    extractAppName ("") = ("") := by
  refine ⟨?_, by decide, by decide, by decide⟩
  intro s
  by_cases hs : s = ""
  · subst hs
    rfl
  · rw [extractAppName, specExtract, if_neg hs, if_neg hs, findSplit_eq_specSplit s.data]
    cases hsp : specSplit s.data with
    | none => rfl
    | some i => rfl

theorem lookup_setA_self {β : Type} (k : String) (v : β) :
    ∀ m : List (String × β), (setA k v m).lookup k = some v := by
  intro m
  induction m with
  | nil => simp [setA, List.lookup]
  | cons p t ih =>
    obtain ⟨k', v'⟩ := p
    by_cases h : k' = k
    · subst h
      rw [show setA k' v ((k', v') :: t) = (k', v) :: t from by rw [setA, if_pos rfl]]
      simp [List.lookup]
    · rw [show setA k v ((k', v') :: t) = (k', v') :: setA k v t from by rw [setA, if_neg h]]
      have hbeq : (k == k') = false := beq_eq_false_iff_ne.mpr (Ne.symm h)
      simp [List.lookup, hbeq, ih]

theorem lookup_isSome_map {β : Type} (f : String × β → String × β)
    (hf : ∀ p, (f p).1 = p.1) (k : String) :
    ∀ m : List (String × β), ((m.map f).lookup k).isSome = (m.lookup k).isSome := by
  intro m
  induction m with
  | nil => rfl
  | cons p t ih =>
    rw [List.map_cons]
    cases hfp : f p with
    | mk fk fv =>
      obtain ⟨k1, v1⟩ := p
      have hk1 : fk = k1 := by
        have hh := hf (k1, v1)
        rw [hfp] at hh
        exact hh
      subst hk1
      by_cases hk : (k == fk) = true
      · simp [List.lookup, hk]
      · simp [List.lookup, hk, ih]

theorem track1_insert_lookup (s : TrayS) (now : Nat) (core ty : String) :
    ((track1_insert s now core ty).appUsageData.lookup core).isSome = true := by
  unfold track1_insert
  split
  · show ((setA core ({ time := 0, type := ty, lastActiveTime := now } : UsageRec1)
      s.appUsageData).lookup core).isSome = true
    rw [lookup_setA_self]
    rfl
  · next h =>
    cases hl : s.appUsageData.lookup core with
    | none => rw [hl] at h; simp at h
    | some _ => rfl

theorem track1_ledger_lookup (s : TrayS) (now : Nat) (core ty : String) :
    ((track1_ledger s now core ty).appUsageData.lookup core).isSome = true := by
  unfold track1_ledger
  dsimp only
  split
  · rw [lookup_isSome_map _ (fun p => by split <;> rfl)]
    exact track1_insert_lookup s now core ty
  · rw [lookup_isSome_map _ (fun p => by split <;> rfl)]
    exact track1_insert_lookup s now core ty

theorem notify1_appUsage (s : TrayS) (now : Nat) (a : String) :
    (notifyFocusModeViolation1 s now a).1.appUsageData = s.appUsageData := by
  unfold notifyFocusModeViolation1
  dsimp only
  repeat' split
  all_goals rfl

theorem track1_lookup (s : TrayS) (now : Nat) (title : String) (owner : Option String) :
    ((trackAppUsage1 s now title owner).1.appUsageData.lookup
      (extractAppName (resolveAppName title owner))).isSome = true := by
  unfold trackAppUsage1
  dsimp only
  split
  · rw [notify1_appUsage]
    exact track1_ledger_lookup _ _ _ _
  · exact track1_ledger_lookup _ _ _ _

theorem track1_switches (s : TrayS) (now : Nat) (title : String) (owner : Option String) :
    (trackAppUsage1 s now title owner).1.windowSwitches = s.windowSwitches := by
  unfold trackAppUsage1
  dsimp only
  split
  · exact ((notify1_frame _ _ _).2.1).trans (track1_ledger_frame _ _ _ _).2.1
  · exact (track1_ledger_frame _ _ _ _).2.1

theorem hws1_switches (s : TrayS) (now : Nat) (w : String) (h : s.lastActiveWindow ≠ some w) :
    (handleWindowSwitch1 s now w).1.windowSwitches = s.windowSwitches + 1 ∨
    (handleWindowSwitch1 s now w).1.windowSwitches = 0 := by
  by_cases h2 : switchThreshold ≤ s.windowSwitches + 1
  · by_cases h3 : notificationCooldown < now - s.lastNotificationTime
    · right
      simp [handleWindowSwitch1, h, h2, h3]
    · right
      simp [handleWindowSwitch1, h, h2, h3]
  · left
    simp [handleWindowSwitch1, h, h2]

theorem hrws1_switches (s : TrayS) (now : Nat) (w : String) (h : s.lastActiveWindow ≠ some w) :
    (handleRealWindowSwitch1 s now w).1.windowSwitches = s.windowSwitches + 1 ∨
    (handleRealWindowSwitch1 s now w).1.windowSwitches = 0 := by
  unfold handleRealWindowSwitch1
  dsimp only
  split
  · exact hws1_switches _ now w h
  · exact hws1_switches s now w h

theorem track1_empty_viol (s : TrayS) (now : Nat) :
    (trackAppUsage1 s now ("") none).2 = none := by
  have hsys : isSystemApp (extractAppName (resolveAppName ("") none)) = true := by decide
  unfold trackAppUsage1
  dsimp only
  simp [hsys]

theorem C8_counterexample :
    ((activityStep1 (initTray 0) 1000 ("") none).1.appUsageData.lookup ("")).isSome = true ∧
    (initTray 0).appUsageData.lookup ("") = none ∧
    (activityStep1 (initTray 0) 1000 ("") none).1.windowSwitches = 1 ∧
    (initTray 0).windowSwitches = 0 := by
  decide

/-- C8 (amended): an activity event whose derived identity is empty still
updates the last-activity (idle) clock, but the service does not skip ledger
or switch-detection work: a usage record keyed by the empty identity is
created or refreshed, and when the raw title differs from the previous
window the switch counter advances (increments, or is consumed by a
threshold reset); no focus-mode violation is ever produced for the empty
identity, because the bidirectional substring test treats it as
default-exempt. -/
theorem C8_amended_empty_identity :
    ∀ (s : TrayS) (now : Nat),
      (activityStep1 s now ("") none).1.lastActivityTime = now ∧
      ((activityStep1 s now ("") none).1.appUsageData.lookup ("")).isSome = true ∧
      (s.lastActiveWindow ≠ some ("") →
        (activityStep1 s now ("") none).1.windowSwitches = s.windowSwitches + 1 ∨
        (activityStep1 s now ("") none).1.windowSwitches = 0) ∧
      (activityStep1 s now ("") none).2.2 = none := by
  intro s now
  have hcore : extractAppName (resolveAppName ("") none) = "" := by decide
  refine ⟨rfl, ?_, ?_, ?_⟩
  · have hl := track1_lookup (handleRealWindowSwitch1 s now ("")).1 now ("") none
    rw [hcore] at hl
    exact hl
  · intro hne
    have ht := track1_switches (handleRealWindowSwitch1 s now ("")).1 now ("") none
    rcases hrws1_switches s now ("") hne with hw | hw
    · exact Or.inl (ht.trans hw)
    · exact Or.inr (ht.trans hw)
  · exact track1_empty_viol (handleRealWindowSwitch1 s now ("")).1 now

theorem C8_witness :
    ((initTray 0).lastActiveWindow ≠ some ("")) ∧
    ((activityStep1 (initTray 0) 7 ("") none).1.windowSwitches = (initTray 0).windowSwitches + 1 ∨
      (activityStep1 (initTray 0) 7 ("") none).1.windowSwitches = 0) :=
  ⟨by decide, (C8_amended_empty_identity (initTray 0) 7).2.2.1 (by decide)⟩

theorem C9_counterexample :
    (addNotificationListener exSub 7).2 = [] ∧
    (addScreenTimeListener exSub 7).2 = [(7, CallVal.stv 42)] :=
  ⟨rfl, rfl⟩

/-- C9 (amended): subscribing to the screen-time, app-usage, or focus-mode
signal invokes the newly added callback synchronously, exactly once, with
the current value, and appends the callback to the corresponding listener
list; subscribing to the notification/alert channel only appends the
callback and performs no replay. -/
theorem C9_amended_replay_on_subscribe :
    ∀ (s : SubSt) (cb : Nat),
      (addScreenTimeListener s cb).2 = [(cb, CallVal.stv s.screenTimeToday)] ∧
      (addScreenTimeListener s cb).1.screenTimeListeners = s.screenTimeListeners ++ [cb] ∧
      (addAppUsageListener s cb).2 = [(cb, CallVal.usage s.appUsageData)] ∧
      (addAppUsageListener s cb).1.appUsageListeners = s.appUsageListeners ++ [cb] ∧
      (addFocusModeListener s cb).2 = [(cb, CallVal.fm s.isFocusMode)] ∧
      (addFocusModeListener s cb).1.focusModeListeners = s.focusModeListeners ++ [cb] ∧
      (addNotificationListener s cb).2 = [] ∧
      (addNotificationListener s cb).1.listeners = s.listeners ++ [cb] :=
  fun _ _ => ⟨rfl, rfl, rfl, rfl, rfl, rfl, rfl, rfl⟩

theorem C10_counterexample :
    ((getScreenTime2 exHookC10 5).2).appUsageData ≠ exHookC10.appUsageData ∧
    exHookC10.userIdleTime < idleThreshold := by
  decide

/-- C10 (amended): `getScreenTime` is not a pure query — each call runs the
accumulation step, adding the elapsed wall time to the total when the user
is not idle and always advancing the previous-tick timestamp to the call
time, so two successive calls can return different values.  In the tray
variant every other field is left unchanged; in the hook variant the
currently-active window's usage record is also advanced when not idle
(and is untouched when idle). -/
theorem C10_amended_getter_effects :
    (∀ (s : TrayS) (now : Nat),
      ((getScreenTime1 s now).2).lastScreenTimeUpdate = now ∧
      (s.userIdleTime < idleThreshold →
        (getScreenTime1 s now).1 = s.screenTimeToday + (now - s.lastScreenTimeUpdate)) ∧
      (¬ s.userIdleTime < idleThreshold → (getScreenTime1 s now).1 = s.screenTimeToday) ∧
      ((getScreenTime1 s now).2).lastActiveWindow = s.lastActiveWindow ∧
      ((getScreenTime1 s now).2).windowSwitches = s.windowSwitches ∧
      ((getScreenTime1 s now).2).switchDeadline = s.switchDeadline ∧
      ((getScreenTime1 s now).2).lastNotificationTime = s.lastNotificationTime ∧
      ((getScreenTime1 s now).2).notificationThrottleMap = s.notificationThrottleMap ∧
      ((getScreenTime1 s now).2).lastActivityTime = s.lastActivityTime ∧
      ((getScreenTime1 s now).2).userIdleTime = s.userIdleTime ∧
      ((getScreenTime1 s now).2).focusScore = s.focusScore ∧
      ((getScreenTime1 s now).2).distractionCount = s.distractionCount ∧
      ((getScreenTime1 s now).2).isFocusMode = s.isFocusMode ∧
      ((getScreenTime1 s now).2).focusModeWhitelist = s.focusModeWhitelist ∧
      ((getScreenTime1 s now).2).dimInsteadOfBlock = s.dimInsteadOfBlock ∧
      ((getScreenTime1 s now).2).appUsageData = s.appUsageData ∧
      ((getScreenTime1 s now).2).recentSwitches = s.recentSwitches ∧
      ((getScreenTime1 s now).2).lastWindowSwitchTime = s.lastWindowSwitchTime) ∧
    (∀ (s : HookS) (now : Nat),
      ((getScreenTime2 s now).2).lastScreenTimeUpdate = now ∧
      (s.userIdleTime < idleThreshold →
        (getScreenTime2 s now).1 = s.screenTimeToday + (now - s.lastScreenTimeUpdate)) ∧
      (¬ s.userIdleTime < idleThreshold →
        (getScreenTime2 s now).1 = s.screenTimeToday ∧
        ((getScreenTime2 s now).2).appUsageData = s.appUsageData) ∧
      ((getScreenTime2 s now).2).lastActivityTime = s.lastActivityTime ∧
      ((getScreenTime2 s now).2).userIdleTime = s.userIdleTime ∧
      ((getScreenTime2 s now).2).lastActiveWindow = s.lastActiveWindow) ∧
    ((getScreenTime1 (initTray 0) 60000).1 ≠
      (getScreenTime1 ((getScreenTime1 (initTray 0) 60000).2) 120000).1) := by
  refine ⟨?_, ?_, by decide⟩
  · intro s now
    by_cases hi : s.userIdleTime < idleThreshold
    · simp [getScreenTime1, updateScreenTime1, hi]
    · simp [getScreenTime1, updateScreenTime1, hi]
  · intro s now
    by_cases hi : s.userIdleTime < idleThreshold
    · simp [getScreenTime2, updateScreenTime2, hi]
    · simp [getScreenTime2, updateScreenTime2, hi]

theorem C10_witness :
    (initTray 0).userIdleTime < idleThreshold ∧
    (getScreenTime1 (initTray 0) 60000).1 =
      (initTray 0).screenTimeToday + (60000 - (initTray 0).lastScreenTimeUpdate) :=
  ⟨by decide, (C10_amended_getter_effects.1 (initTray 0) 60000).2.1 (by decide)⟩
